import Mathlib

/-!
Verification of the termenu grid-selector engine (`termenu.py`).

The Python classes are shallowly embedded as Lean structures and pure
transition functions.  Machine integers are modelled as `Int` (Python ints
are unbounded); Python `%` on a positive modulus agrees with `Int.emod`.
Fallible operations (list indexing, the key-event source) are modelled with
`Except`.  Terminal output is modelled as a trace of abstract operations.
-/

namespace Termenu

/-- The window part of `Menu`'s state: the cursor index `selected` and the
index `first` of the first visible option.  `height` and `columns` are
fixed at construction and never mutated, so they are passed as parameters
to the transition functions instead of being stored here. -/
structure Win where
  selected : Int
  first : Int
deriving Repr, DecidableEq

/-- Embeds `Menu._items_in_page`: `min(self.height * self.columns, len(self.options))`. -/
def itemsInPage (opts : List String) (h c : Int) : Int :=
  min (h * c) (opts.length : Int)

/-- Embeds `Menu._top_right`: `self.first + self.height * (self.columns - 1)`. -/
def topRight (h c : Int) (w : Win) : Int := w.first + h * (c - 1)

/-- Embeds `Menu._bottom_right`: `self.first + self.height * self.columns - 1`. -/
def bottomRight (h c : Int) (w : Win) : Int := w.first + h * c - 1

/-- Embeds `Menu._top_left`: `self.first`. -/
def topLeft (w : Win) : Int := w.first

/-- Embeds `Menu._bottom_left`: `self.first + self.height - 1`. -/
def bottomLeft (h : Int) (w : Win) : Int := w.first + h - 1

/-- Embeds `Menu._adjust_selected`: the four sequential clamping `if`s, in source
order (`selected` below 0, `selected` above `len-1`, `first` below 0,
`first` above `len - items_in_page`). -/
def adjust (opts : List String) (h c : Int) (w : Win) : Win :=
  let n : Int := opts.length
  let s1 := if w.selected < 0 then 0 else w.selected
  let s2 := if s1 > n - 1 then n - 1 else s1
  let f1 := if w.first < 0 then 0 else w.first
  let f2 := if f1 > n - itemsInPage opts h c then n - itemsInPage opts h c else f1
  { selected := s2, first := f2 }

/-- Embeds `Menu._on_down`: scroll by one when the cursor is on the last visible
item, advance the cursor, clamp. -/
def onDown (opts : List String) (h c : Int) (w : Win) : Win :=
  adjust opts h c
    { selected := w.selected + 1
      first := if w.selected = w.first + itemsInPage opts h c - 1 then w.first + 1 else w.first }

/-- Embeds `Menu._on_up`: scroll back by one when the cursor is on the first visible
item, retreat the cursor, clamp. -/
def onUp (opts : List String) (h c : Int) (w : Win) : Win :=
  adjust opts h c
    { selected := w.selected - 1
      first := if w.selected = w.first then w.first - 1 else w.first }

/-- Embeds `Menu._on_right`: move one column right, page when already in the last
column (nested `if`s as in the source; a cursor strictly beyond
`bottom_right` falls through unchanged). -/
def onRight (opts : List String) (h c : Int) (w : Win) : Win :=
  adjust opts h c
    (if w.selected ≥ topRight h c w then
       if w.selected < bottomRight h c w then { w with selected := bottomRight h c w }
       else if w.selected = bottomRight h c w then
         { selected := w.selected + h, first := w.first + h }
       else w
     else { w with selected := w.selected + h })

/-- Embeds `Menu._on_left`: mirror of `_on_right` using `bottom_left`/`top_left`. -/
def onLeft (opts : List String) (h c : Int) (w : Win) : Win :=
  adjust opts h c
    (if w.selected ≤ bottomLeft h w then
       if w.selected > topLeft w then { w with selected := topLeft w }
       else if w.selected = topLeft w then
         { selected := w.selected - h, first := w.first - h }
       else w
     else { w with selected := w.selected - h })

/-- Embeds `Menu._on_pageDown`: from the last item of the page jump a full page
forward, otherwise jump to the last item of the current page. -/
def onPageDown (opts : List String) (h c : Int) (w : Win) : Win :=
  let items := itemsInPage opts h c
  adjust opts h c
    (if w.selected = w.first + items - 1 then
       { selected := w.selected + items, first := w.first + items }
     else { w with selected := w.first + items - 1 })

/-- Embeds `Menu._on_pageUp`: from the first item of the page jump a full page
back, otherwise jump to the top of the current page. -/
def onPageUp (opts : List String) (h c : Int) (w : Win) : Win :=
  let items := itemsInPage opts h c
  adjust opts h c
    (if w.selected = w.first then
       { selected := w.selected - items, first := w.first - items }
     else { w with selected := w.first })

/-- Embeds `Menu._on_home`: `selected = 0; first = 0` then clamp. -/
def onHome (opts : List String) (h c : Int) (w : Win) : Win :=
  adjust opts h c { selected := 0, first := 0 }

/-- Embeds `Menu._on_end`: `selected = len-1; first = selected - items_in_page + 1`
(the second assignment reads the already-updated `selected`), then clamp. -/
def onEnd (opts : List String) (h c : Int) (w : Win) : Win :=
  let n : Int := opts.length
  adjust opts h c { selected := n - 1, first := n - 1 - itemsInPage opts h c + 1 }

/-- The abstract key events consumed by the engine (spec §6). -/
inductive Key where
  | down | up | right | left | pageDown | pageUp | home | end_
  | enter | esc | backspace | space
  | char (c : Char)
deriving Repr, DecidableEq

/-- The eight navigation keys, whose `Menu` handlers all end in
`_adjust_selected`. -/
def isNavKey : Key → Bool
  | .down | .up | .right | .left | .pageDown | .pageUp | .home | .end_ => true
  | _ => false

/-- Effect of one key on the window state of the base `Menu` engine
(`enter`/`esc` and unhandled keys leave the window untouched). -/
def navStep (opts : List String) (h c : Int) (w : Win) : Key → Win
  | .down => onDown opts h c w
  | .up => onUp opts h c w
  | .right => onRight opts h c w
  | .left => onLeft opts h c w
  | .pageDown => onPageDown opts h c w
  | .pageUp => onPageUp opts h c w
  | .home => onHome opts h c w
  | .end_ => onEnd opts h c w
  | _ => w

/-- Embeds `Menu._compute_default`: map the `default` option value to an index
(falling back to 0 when absent, like the caught `ValueError`), then
`max(0, default % len(options))`. -/
def computeDefault (opts : List String) (default : Option String) : Int :=
  let d : Int :=
    match default with
    | Option.none => 0
    | Option.some s =>
      match opts.indexOf? s with
      | Option.some i => (i : Int)
      | Option.none => 0
  max 0 (d % (opts.length : Int))

/-- Embeds `Menu.__init__` window part: `self.selected = self._compute_default(default)`
and `self.first = self.selected - self.selected % self.height`.  The
terminal-geometry clamping of `height`/`columns` is external (spec §6), so
the already-computed `height` is a parameter. -/
def initWin (opts : List String) (default : Option String) (h : Int) : Win :=
  let sel := computeDefault opts default
  { selected := sel, first := sel - sel % h }

/-- The finalization value stored in `self.result`: Python `None`, a single
string, or a list of strings — the three are distinguished by type as in
the source. -/
inductive Result where
  | none
  | str (s : String)
  | list (l : List String)
deriving Repr, DecidableEq

/-- The exceptions the embedded code can raise. -/
inductive PyErr where
  | indexError
  | streamError
deriving Repr, DecidableEq

/-- Python list indexing `l[i]`, including negative-index wrap-around;
`Option.none` stands for an `IndexError`. -/
def pyIndex (l : List String) (i : Int) : Option String :=
  if 0 ≤ i then l.get? i.toNat
  else if 0 ≤ i + (l.length : Int) then l.get? (i + (l.length : Int)).toNat
  else Option.none

/-- The full state of a plain (single-select, no search) `Menu`. -/
structure BMenu where
  title : String
  options : List String
  width : Int
  height : Int
  columns : Int
  win : Win
  result : Result
deriving Repr, DecidableEq

/-- Embeds `Menu.__init__` (with the terminal-geometry-derived `height`/`columns`
passed in, see `initWin`): `width` is the longest label, `result` starts as
`None`. -/
def initBMenu (title : String) (opts : List String) (default : Option String)
    (h c : Int) : BMenu :=
  { title := title
    options := opts
    width := ((opts.map (fun o => (o.length : Int))).foldl max 0)
    height := h
    columns := c
    win := initWin opts default h
    result := Result.none }

/-- Embeds `Menu._dispatch_key`: reflective lookup of `_on_<key>`.  The base class
has handlers for the eight navigation keys plus `enter` and `esc`; any
other key has no handler and is a no-op returning `None` (not finalized).
`_on_enter` indexes `self.options[self.selected]`, which raises an
`IndexError` when out of range. -/
def BMenu.dispatchKey (m : BMenu) (k : Key) : Except PyErr (BMenu × Bool) :=
  match k with
  | .enter =>
    match pyIndex m.options m.win.selected with
    | Option.some s => .ok ({ m with result := Result.str s }, true)
    | Option.none => .error PyErr.indexError
  | .esc => .ok ({ m with result := Result.none }, true)
  | k =>
    if isNavKey k then
      .ok ({ m with win := navStep m.options m.height m.columns m.win k }, false)
    else
      .ok (m, false)

/-- The key-consuming part of `Menu.show`: dispatch keys until one
finalizes (then the menu returns `self.result`), the stream ends (the
`for` loop falls through and `show` returns Python `None`, modelled as
`Option.none`), or an exception escapes. -/
def runBase (m : BMenu) : List Key → Except PyErr (Option Result)
  | [] => .ok Option.none
  | k :: ks =>
    match m.dispatchKey k with
    | .error e => .error e
    | .ok (m', true) => .ok (Option.some m'.result)
    | .ok (m', false) => runBase m' ks

/-- Does `needle` occur at the head of `hay`? (helper for Python's `in`
on strings). -/
def matchesAt : List Char → List Char → Bool
  | [], _ => true
  | _ :: _, [] => false
  | a :: as, b :: bs => a == b && matchesAt as bs

/-- Python `needle in hay` on strings: contiguous-substring containment. -/
def hasSub (needle : List Char) : List Char → Bool
  | [] => matchesAt needle []
  | b :: bs => matchesAt needle (b :: bs) || hasSub needle bs

/-- The filter predicate of `SearchMixin._refilter`:
`self.searchText.lower() in o.lower()`. -/
def containsSub (needle : List Char) (hay : String) : Bool :=
  hasSub (needle.map Char.toLower) (hay.data.map Char.toLower)

/-- The full state of a `SearchMixin + Menu` widget: the base `Menu` fields
plus `searchMode`, `searchText`, the saved full list `_allOptions` and the
filtered-to-original index table `_indexes`. -/
structure SMenu where
  title : String
  allOptions : List String
  width : Int
  height : Int
  columns : Int
  options : List String
  indexes : List Nat
  win : Win
  searchMode : Bool
  searchText : List Char
  result : Result
deriving Repr, DecidableEq

/-- The `enumerate`-and-filter step of `SearchMixin._refilter`. -/
def filteredPairs (all : List String) (t : List Char) : List (Nat × String) :=
  (List.zip (List.range all.length) all).filter (fun p => containsSub t p.2)

/-- Embeds `SearchMixin._refilter`: when searching, derive `options`/`_indexes`
from the case-insensitive substring filter; otherwise restore the full
list; either way reset `selected = 0, first = 0`. -/
def refilter (sm : SMenu) : SMenu :=
  if sm.searchMode then
    { sm with
      options := (filteredPairs sm.allOptions sm.searchText).map Prod.snd
      indexes := (filteredPairs sm.allOptions sm.searchText).map Prod.fst
      win := { selected := 0, first := 0 } }
  else
    { sm with
      options := sm.allOptions
      indexes := List.range sm.allOptions.length
      win := { selected := 0, first := 0 } }

/-- Embeds `SearchMixin._start_search`: enter search mode with an empty query
(no-op when already searching). -/
def startSearch (sm : SMenu) : SMenu :=
  if sm.searchMode then sm else { sm with searchText := [], searchMode := true }

/-- Embeds `SearchMixin._stop_search`: leave search mode and refilter (which
restores the full option list), no-op when not searching. -/
def stopSearch (sm : SMenu) : SMenu :=
  if sm.searchMode then refilter { sm with searchMode := false } else sm

/-- Embeds `SearchMixin._on_backspace`: when searching with a non-empty query,
drop its last character and refilter. -/
def onBackspace (sm : SMenu) : SMenu :=
  if sm.searchMode ∧ sm.searchText ≠ [] then
    refilter { sm with searchText := sm.searchText.dropLast }
  else sm

/-- The printable-character branch of `SearchMixin._dispatch_key`:
`_start_search`, append the character to the query, `_refilter`. -/
def typeStep (sm : SMenu) (ch : Char) : SMenu :=
  let sm1 := startSearch sm
  refilter { sm1 with searchText := sm1.searchText ++ [ch] }

/-- Embeds `SearchMixin._on_esc`: while searching, stop the search and report
"not finalized"; otherwise fall through to `Menu._on_esc` (result `None`,
finalized). -/
def sOnEsc (sm : SMenu) : SMenu × Bool :=
  if sm.searchMode then (stopSearch sm, false)
  else ({ sm with result := Result.none }, true)

/-- Embeds `SearchMixin._dispatch_key` on top of `Menu._dispatch_key`: printable
characters (`32 < ord(key) < 127`) feed the search; everything else falls
through to the reflective base dispatch, where `_on_esc` and
`_on_backspace` resolve to the mixin's overrides. -/
def SMenu.dispatchKey (sm : SMenu) (k : Key) : Except PyErr (SMenu × Bool) :=
  match k with
  | .char ch =>
    if 32 < ch.toNat ∧ ch.toNat < 127 then .ok (typeStep sm ch, false)
    else .ok (sm, false)
  | .backspace => .ok (onBackspace sm, false)
  | .esc => .ok (sOnEsc sm)
  | .enter =>
    match pyIndex sm.options sm.win.selected with
    | Option.some s => .ok ({ sm with result := Result.str s }, true)
    | Option.none => .error PyErr.indexError
  | k =>
    if isNavKey k then
      .ok ({ sm with win := navStep sm.options sm.height sm.columns sm.win k }, false)
    else .ok (sm, false)

/-- The key loop of `show` for a search menu: dispatch until finalization
(`Option.some result`), end of stream (`Option.none`), or an exception. -/
def sRun (sm : SMenu) : List Key → Except PyErr (SMenu × Option Result)
  | [] => .ok (sm, Option.none)
  | k :: ks =>
    match sm.dispatchKey k with
    | .error e => .error e
    | .ok (sm', true) => .ok (sm', Option.some sm'.result)
    | .ok (sm', false) => sRun sm' ks

/-- Embeds `SearchMixin.__init__`: run `Menu.__init__`, record `_allOptions`,
start outside search mode with an empty query, then `_refilter` (which
resets the cursor to `0/0`). -/
def initSMenu (title : String) (opts : List String) (default : Option String)
    (h c : Int) : SMenu :=
  refilter
    { title := title
      allOptions := opts
      width := ((opts.map (fun o => (o.length : Int))).foldl max 0)
      height := h
      columns := c
      options := opts
      indexes := []
      win := initWin opts default h
      searchMode := false
      searchText := []
      result := Result.none }

/-- Lexicographic code-point comparison, Python's `<=` on `str`. -/
def charListLe : List Char → List Char → Bool
  | [], _ => true
  | _ :: _, [] => false
  | a :: as, b :: bs =>
    if a.toNat < b.toNat then true
    else if b.toNat < a.toNat then false
    else charListLe as bs

def strLe (a b : String) : Bool := charListLe a.data b.data

/-- Sorted insertion (helper for Python `sorted`). -/
def insertStr (x : String) : List String → List String
  | [] => [x]
  | y :: ys => if strLe x y then x :: y :: ys else y :: insertStr x ys

/-- Python `sorted` on strings: ascending code-point order. -/
def sortStrings : List String → List String
  | [] => []
  | x :: xs => insertStr x (sortStrings xs)

/-- The state of a `MultiSelectMixin + SearchMixin + Menu` widget: the
search-menu state plus the selection set `selectedItems` (a Python `set`
of option values, modelled as a duplicate-free list in insertion order —
only its membership and its sorted image are ever observed). -/
structure MMenu where
  base : SMenu
  selectedItems : List String
deriving Repr, DecidableEq

/-- Embeds `MultiSelectMixin._on_space`: read the option under the cursor
(`IndexError` when the visible list is empty), toggle its membership in
the selection set, then advance like `_on_down` without finalizing. -/
def mOnSpace (m : MMenu) : Except PyErr MMenu :=
  match pyIndex m.base.options m.base.win.selected with
  | Option.none => .error PyErr.indexError
  | Option.some o =>
    let items := if m.selectedItems.contains o
      then m.selectedItems.erase o else m.selectedItems ++ [o]
    .ok { base := { m.base with
            win := onDown m.base.options m.base.height m.base.columns m.base.win }
          selectedItems := items }

/-- Embeds `MultiSelectMixin._on_enter`: when the selection set is empty,
implicitly add the currently highlighted option (indexing raises on an
empty visible list); finalize with the sorted selection set. -/
def mOnEnter (m : MMenu) : Except PyErr (MMenu × Bool) :=
  if m.selectedItems = [] then
    match pyIndex m.base.options m.base.win.selected with
    | Option.none => .error PyErr.indexError
    | Option.some o =>
      .ok ({ base := { m.base with result := Result.list (sortStrings [o]) }
             selectedItems := [o] }, true)
  else
    .ok ({ m with
      base := { m.base with result := Result.list (sortStrings m.selectedItems) } }, true)

/-- Embeds `MultiSelectMixin._on_esc`: set `result = []`, then call the next
`_on_esc` in the MRO (the search mixin's, which when not searching falls
through to `Menu._on_esc` — and that overwrites `result` with `None`). -/
def mOnEsc (m : MMenu) : MMenu × Bool :=
  let m1 : MMenu := { m with base := { m.base with result := Result.list [] } }
  let p := sOnEsc m1.base
  ({ m1 with base := p.1 }, p.2)

/-- Key dispatch for the multi-select widget (MRO `MultiSelectMixin`,
`SearchMixin`, `Menu`): printable characters and `backspace` are claimed
by the search mixin, `enter`/`esc`/`space` resolve to the multi-select
handlers, navigation falls through to the base engine. -/
def MMenu.dispatchKey (m : MMenu) (k : Key) : Except PyErr (MMenu × Bool) :=
  match k with
  | .char ch =>
    if 32 < ch.toNat ∧ ch.toNat < 127 then
      .ok ({ m with base := typeStep m.base ch }, false)
    else .ok (m, false)
  | .backspace => .ok ({ m with base := onBackspace m.base }, false)
  | .esc => .ok (mOnEsc m)
  | .enter => mOnEnter m
  | .space =>
    match mOnSpace m with
    | .error e => .error e
    | .ok m' => .ok (m', false)
  | k =>
    if isNavKey k then
      .ok ({ m with base := { m.base with
        win := navStep m.base.options m.base.height m.base.columns m.base.win k } }, false)
    else .ok (m, false)

/-- The key loop of `show` for the multi-select widget. -/
def runMulti (m : MMenu) : List Key → Except PyErr (Option Result)
  | [] => .ok Option.none
  | k :: ks =>
    match m.dispatchKey k with
    | .error e => .error e
    | .ok (m', true) => .ok (Option.some m'.base.result)
    | .ok (m', false) => runMulti m' ks

/-- Embeds `MultiSelectMixin.__init__`: run the search-menu construction, then
create the empty selection set. -/
def initMMenu (title : String) (opts : List String) (default : Option String)
    (h c : Int) : MMenu :=
  { base := initSMenu title opts default h c, selectedItems := [] }

/-- Finalization view of a multi-select dispatch outcome: the stored
result and the finalized flag. -/
def mDispatchView : Except PyErr (MMenu × Bool) → Option (Result × Bool)
  | .ok (m, b) => Option.some (m.base.result, b)
  | .error _ => Option.none

/-- Projection of a search-menu run onto the reached visible option list. -/
def sRunOptions (sm : SMenu) (ks : List Key) : Option (List String) :=
  match sRun sm ks with
  | .ok (sm', _) => Option.some sm'.options
  | .error _ => Option.none

/-- Abstract terminal-driver operations (spec §6). -/
inductive TermOp where
  | write (s : String)
  | clearLine
  | clearEol
  | up (n : Int)
  | down
  | savePos
  | restorePos
  | hideCursor
  | showCursor
deriving Repr, DecidableEq

/-- Modelled from the spec: `ansi.colorize(text, foreground, background,
bright) -> text` — the `ansi` terminal driver is an external collaborator
not part of this repository; `colorize` returns the styled text, modelled
as the text itself (styling escapes are out of scope). -/
def colorize (text : String) (fg : String) (bg : Option String) (bright : Bool) : String :=
  text

/-- Python `range(a, b, step)` for a positive step. -/
def pyRange (a b step : Int) : List Int :=
  if 0 < step then
    (List.range (((b - a) + step - 1) / step).toNat).map (fun i => a + step * (i : Int))
  else []

/-- Python slice `l[a:b]` (indices clamped, negative indices measured from
the end). -/
def pySlice (l : List String) (a b : Int) : List String :=
  let n : Int := l.length
  let a' := if a < 0 then max 0 (a + n) else min a n
  let b' := if b < 0 then max 0 (b + n) else min b n
  (l.drop a'.toNat).take (b' - a').toNat

/-- Embeds `Menu._build_left_marker`. -/
def buildLeftMarker (m : BMenu) (index : Int) : String :=
  if index > 0 ∧ index = topLeft m.win then colorize "^" "white" Option.none true
  else if topLeft m.win ≤ index ∧ index ≤ bottomLeft m.height m.win then " "
  else ""

/-- Embeds `Menu._build_right_marker`. -/
def buildRightMarker (m : BMenu) (index : Int) : String :=
  if index < (m.options.length : Int) - 1 ∧ index = bottomRight m.height m.columns m.win then
    colorize "v" "white" Option.none true
  else if topRight m.height m.columns m.win ≤ index ∧
      index ≤ bottomRight m.height m.columns m.win then " "
  else ""

/-- Embeds `Menu._colorize_item`: inverse video on the cursor row. -/
def colorizeItem (m : BMenu) (index : Int) (item : String) : String :=
  if index = m.win.selected then colorize item "black" (Option.some "white") false else item

/-- Embeds `Menu._build_menu_item`: pad to the column width, style, add markers. -/
def buildMenuItem (m : BMenu) (index : Int) (option : String) : String :=
  let item := option ++ String.mk (List.replicate (m.width - (option.length : Int)).toNat ' ')
  let item := colorizeItem m index item
  buildLeftMarker m index ++ item ++ buildRightMarker m index

/-- Embeds `Menu._print_menu`: for each of the `height` rows, write the joined
row items (column-major page addressing), clear to end of line, newline. -/
def printMenuOps (m : BMenu) : List TermOp :=
  let page := pySlice m.options m.win.first (m.win.first + m.height * m.columns)
  ((List.range m.height.toNat).map (fun row =>
    let lineItemIndexes := pyRange (row : Int) ((row : Int) + (page.length : Int)) m.height
    let items := (lineItemIndexes.filter (fun i => i < (page.length : Int))).map
      (fun i => buildMenuItem m (m.win.first + i) (page.getD i.toNat ""))
    [TermOp.write (String.intercalate " " items), TermOp.clearEol, TermOp.write "\n"])).flatten

/-- Embeds `Menu._clear_menu`: restore the saved bottom-of-menu position, move up
over the rendered block (one extra line when a title was printed), clear
each of its lines moving down, clear one further line, move back up. -/
def clearMenuOps (title : String) (height : Int) : List TermOp :=
  let lines := if title ≠ "" then height + 1 else height
  [TermOp.restorePos, TermOp.up lines] ++
    (List.replicate lines.toNat [TermOp.clearLine, TermOp.down]).flatten ++
    [TermOp.clearLine, TermOp.up lines]

/-- One event from the key-event source: a key, or a failure of the source
(an exception propagating out of `keyboard_listener`). -/
inductive Ev where
  | key (k : Key)
  | fail
deriving Repr, DecidableEq

/-- The `for key in keyboard_listener()` loop of `Menu.show`: dispatch the
key, return `self.result` on finalization, otherwise reposition to the top
of the block and re-render.  The trace holds the loop's terminal output. -/
def showLoop (m : BMenu) : List Ev → Except PyErr (Option Result) × List TermOp
  | [] => (.ok Option.none, [])
  | Ev.fail :: _ => (.error PyErr.streamError, [])
  | Ev.key k :: evs =>
    match m.dispatchKey k with
    | .error e => (.error e, [])
    | .ok (m', true) => (.ok (Option.some m'.result), [])
    | .ok (m', false) =>
      let p := showLoop m' evs
      (p.1, [TermOp.restorePos, TermOp.up m'.height] ++ printMenuOps m' ++ p.2)

/-- Embeds `Menu.show`: print the title when non-empty, render the initial page,
save the bottom-of-menu position, hide the cursor, run the loop; the
`try/finally` attaches `_clear_menu` plus `show_cursor` to the trace on
every exit path. -/
def showMenu (m : BMenu) (evs : List Ev) : Except PyErr (Option Result) × List TermOp :=
  let header :=
    (if m.title ≠ "" then [TermOp.write (colorize m.title "white" Option.none true ++ "\n")]
     else []) ++
    printMenuOps m ++ [TermOp.savePos, TermOp.hideCursor]
  let p := showLoop m evs
  (p.1, header ++ p.2 ++ clearMenuOps m.title m.height ++ [TermOp.showCursor])

/-- The iterated `pageDown` trajectory from the origin window. -/
def pdIter (opts : List String) (h c : Int) (k : Nat) : Win :=
  (fun w => onPageDown opts h c w)^[k] { selected := 0, first := 0 }

/-- Invariant of the repeated-`pageDown` trajectory: the window stays in
bounds, the cursor stays inside the visible page, and once the cursor is
on the last option the window shows the last page. -/
def TourInv (opts : List String) (h c : Int) (w : Win) : Prop :=
  0 ≤ w.first ∧ w.first ≤ (opts.length : Int) - itemsInPage opts h c ∧
  w.first ≤ w.selected ∧ w.selected ≤ (opts.length : Int) - 1 ∧
  w.selected < w.first + itemsInPage opts h c ∧
  (w.selected = (opts.length : Int) - 1 →
    w.first = (opts.length : Int) - itemsInPage opts h c)

/-- After `_adjust_selected` the window bounds hold, from any pre-state:
`0 ≤ selected < len(options)` and `0 ≤ first ≤ max 0 (len - itemsInPage)`. -/
theorem adjust_bounds (opts : List String) (h c : Int) (w : Win) (hN : opts ≠ []) :
    0 ≤ (adjust opts h c w).selected ∧
    (adjust opts h c w).selected < (opts.length : Int) ∧
    0 ≤ (adjust opts h c w).first ∧
    (adjust opts h c w).first ≤ max 0 ((opts.length : Int) - itemsInPage opts h c) := by
  have hn : 1 ≤ (opts.length : Int) := by
    have := List.length_pos.mpr hN
    omega
  have hit : itemsInPage opts h c ≤ (opts.length : Int) := min_le_right _ _
  unfold adjust
  dsimp only
  constructor
  · split <;> split <;> omega
  refine ⟨by split <;> split <;> omega, ?_, ?_⟩
  · split <;> split <;> omega
  · split <;> split <;> omega

/-- C3: for every valid configuration (height ≥ 1, columns ≥ 1, non-empty
options) and every window state (hence in particular every reachable one),
after the clamp that ends each navigation handler, `0 ≤ selected < N` and
`0 ≤ first ≤ max 0 (N - itemsInPage)` hold, with
`itemsInPage = min(height*columns, N)`. -/
theorem nav_clamp_invariant (opts : List String) (h c : Int) (w : Win) (k : Key)
    (hN : opts ≠ []) (hh : 1 ≤ h) (hc : 1 ≤ c) (hk : isNavKey k = true) :
    0 ≤ (navStep opts h c w k).selected ∧
    (navStep opts h c w k).selected < (opts.length : Int) ∧
    0 ≤ (navStep opts h c w k).first ∧
    (navStep opts h c w k).first ≤ max 0 ((opts.length : Int) - itemsInPage opts h c) := by
  cases k <;>
    first
      | exact adjust_bounds opts h c _ hN
      | simp [isNavKey] at hk

/-- Witness for `nav_clamp_invariant` at a concrete configuration. -/
theorem nav_clamp_invariant_witness :
    (["a", "b", "c"] : List String) ≠ [] ∧ (1 : Int) ≤ 3 ∧ (1 : Int) ≤ 1 ∧
      isNavKey Key.down = true ∧
      (0 ≤ (navStep ["a", "b", "c"] 3 1 ⟨0, 0⟩ Key.down).selected ∧
        (navStep ["a", "b", "c"] 3 1 ⟨0, 0⟩ Key.down).selected < (3 : Int) ∧
        0 ≤ (navStep ["a", "b", "c"] 3 1 ⟨0, 0⟩ Key.down).first ∧
        (navStep ["a", "b", "c"] 3 1 ⟨0, 0⟩ Key.down).first ≤
          max 0 ((([ "a", "b", "c"] : List String).length : Int) -
            itemsInPage ["a", "b", "c"] 3 1)) :=
  ⟨by decide, by decide, by decide, by decide,
    nav_clamp_invariant ["a", "b", "c"] 3 1 ⟨0, 0⟩ Key.down
      (by decide) (by decide) (by decide) (by decide)⟩

/-- C4: `down` advances `selected` by one and advances `first` by one
exactly when `selected` was `first + itemsInPage - 1`, followed by the
clamp; and on options `["a","b","c","d","e"]` with `height = 3`,
`columns = 1`, no default, the initial window is `selected = 0, first = 0`
and dispatching `down, down, down, enter` finalizes with result `"d"`
(the third `down` sets `first = 1` and `selected = 3`). -/
theorem down_rule_and_scenario :
    (∀ (opts : List String) (h c : Int) (w : Win),
        onDown opts h c w =
          adjust opts h c
            { selected := w.selected + 1
              first := w.first +
                (if w.selected = w.first + itemsInPage opts h c - 1 then 1 else 0) }) ∧
    (initBMenu "" ["a", "b", "c", "d", "e"] Option.none 3 1).win = ⟨0, 0⟩ ∧
    (List.foldl (fun w k => navStep ["a", "b", "c", "d", "e"] 3 1 w k)
        (initBMenu "" ["a", "b", "c", "d", "e"] Option.none 3 1).win
        [Key.down, Key.down, Key.down]) = ⟨3, 1⟩ ∧
    runBase (initBMenu "" ["a", "b", "c", "d", "e"] Option.none 3 1)
        [Key.down, Key.down, Key.down, Key.enter] =
      Except.ok (Option.some (Result.str "d")) := by
  refine ⟨fun opts h c w => ?_, by decide, by decide, by rfl⟩
  unfold onDown
  split <;> simp_all

/-- C1 counterexample: with options `["a","b","c","d","e"]`, `height = 3`,
`columns = 1` (page size `3`), the state reached from the initial window by
three `down` events has `first = 1`, which is not a multiple of
`height*columns = 3` — the window is not page-aligned in every reachable
state. -/
theorem first_not_page_aligned :
    (List.foldl (fun w k => navStep ["a", "b", "c", "d", "e"] 3 1 w k)
        (initBMenu "" ["a", "b", "c", "d", "e"] Option.none 3 1).win
        [Key.down, Key.down, Key.down]).first = 1 ∧
    ¬((List.foldl (fun w k => navStep ["a", "b", "c", "d", "e"] 3 1 w k)
        (initBMenu "" ["a", "b", "c", "d", "e"] Option.none 3 1).win
        [Key.down, Key.down, Key.down]).first % ((3 : Int) * 1) = 0) := by
  constructor <;> decide

/-- C1 amended: the alignment of `first` holds at construction only, and to
`height` rather than to `height*columns`: `Menu.__init__` sets
`first = selected - selected % height`, a multiple of `height`; navigation
(e.g. `down` on the last visible item, which increments `first` by one)
does not maintain page alignment. -/
theorem first_aligned_at_init (opts : List String) (d : Option String) (h : Int)
    (hN : opts ≠ []) (hh : 1 ≤ h) :
    (initWin opts d h).first =
      (initWin opts d h).selected - (initWin opts d h).selected % h ∧
    h ∣ (initWin opts d h).first := by
  constructor
  · rfl
  · refine ⟨computeDefault opts d / h, ?_⟩
    have := Int.ediv_add_emod (computeDefault opts d) h
    unfold initWin
    dsimp only
    linarith

/-- Witness for `first_aligned_at_init` at a concrete configuration. -/
theorem first_aligned_at_init_witness :
    (["a", "b", "c", "d", "e"] : List String) ≠ [] ∧ (1 : Int) ≤ 3 ∧
      ((initWin ["a", "b", "c", "d", "e"] (Option.some "e") 3).first =
        (initWin ["a", "b", "c", "d", "e"] (Option.some "e") 3).selected -
          (initWin ["a", "b", "c", "d", "e"] (Option.some "e") 3).selected % 3 ∧
      (3 : Int) ∣ (initWin ["a", "b", "c", "d", "e"] (Option.some "e") 3).first) :=
  ⟨by decide, by decide,
    first_aligned_at_init ["a", "b", "c", "d", "e"] (Option.some "e") 3
      (by decide) (by decide)⟩

theorem hasSub_nil (l : List Char) : hasSub [] l = true := by
  cases l <;> simp [hasSub, matchesAt]

theorem containsSub_nil (s : String) : containsSub [] s = true := by
  simp [containsSub, hasSub_nil]

/-- With an empty query the filter keeps every option, in order. -/
theorem filteredPairs_nil_snd (all : List String) :
    (filteredPairs all []).map Prod.snd = all := by
  unfold filteredPairs
  rw [List.filter_eq_self.mpr (fun p _ => containsSub_nil p.2)]
  exact List.map_snd_zip _ _ (by simp)

theorem refilter_win (sm : SMenu) : (refilter sm).win = ⟨0, 0⟩ := by
  unfold refilter
  split <;> rfl

theorem refilter_searchMode (sm : SMenu) : (refilter sm).searchMode = sm.searchMode := by
  unfold refilter
  split <;> rfl

theorem refilter_allOptions (sm : SMenu) : (refilter sm).allOptions = sm.allOptions := by
  unfold refilter
  split <;> rfl

theorem refilter_searchText (sm : SMenu) : (refilter sm).searchText = sm.searchText := by
  unfold refilter
  split <;> rfl

theorem typeStep_searchMode (sm : SMenu) (ch : Char) : (typeStep sm ch).searchMode = true := by
  unfold typeStep startSearch
  cases hm : sm.searchMode <;> simp [hm, refilter_searchMode]

theorem typeStep_allOptions (sm : SMenu) (ch : Char) :
    (typeStep sm ch).allOptions = sm.allOptions := by
  unfold typeStep startSearch
  cases hm : sm.searchMode <;> simp [hm, refilter_allOptions]

theorem typeStep_searchText (sm : SMenu) (ch : Char) :
    (typeStep sm ch).searchText =
      (if sm.searchMode then sm.searchText else []) ++ [ch] := by
  unfold typeStep startSearch
  cases hm : sm.searchMode <;> simp [hm, refilter_searchText]

theorem dispatch_char (sm : SMenu) (ch : Char)
    (h : 32 < ch.toNat ∧ ch.toNat < 127) :
    SMenu.dispatchKey sm (Key.char ch) = .ok (typeStep sm ch, false) := by
  show (if 32 < ch.toNat ∧ ch.toNat < 127 then
      (Except.ok (typeStep sm ch, false) : Except PyErr (SMenu × Bool))
    else Except.ok (sm, false)) = _
  rw [if_pos h]

theorem sRun_cons_of_ok (sm sm' : SMenu) (k : Key) (ks : List Key)
    (h : SMenu.dispatchKey sm k = .ok (sm', false)) :
    sRun sm (k :: ks) = sRun sm' ks := by
  have hstep : sRun sm (k :: ks) =
      match sm.dispatchKey k with
      | .error e => .error e
      | .ok (s, true) => .ok (s, Option.some s.result)
      | .ok (s, false) => sRun s ks := rfl
  rw [hstep, h]

/-- Typing a sequence of printable characters runs `typeStep` for each. -/
theorem sRun_chars (cs : List Char) (sm : SMenu) (rest : List Key)
    (hp : ∀ ch ∈ cs, 32 < ch.toNat ∧ ch.toNat < 127) :
    sRun sm (cs.map Key.char ++ rest) = sRun (cs.foldl typeStep sm) rest := by
  induction cs generalizing sm with
  | nil => rfl
  | cons ch cs ih =>
    rw [List.map_cons, List.cons_append,
      sRun_cons_of_ok sm (typeStep sm ch) _ _ (dispatch_char sm ch (hp ch (by simp))),
      ih (typeStep sm ch) (fun c hc => hp c (by simp [hc])), List.foldl_cons]

/-- Projected effect of typing a character sequence while already in
search mode: it stays in search mode, keeps `_allOptions`, and appends to
the query. -/
theorem foldl_typeStep_props (cs : List Char) (sm : SMenu) (hm : sm.searchMode = true) :
    (cs.foldl typeStep sm).searchMode = true ∧
    (cs.foldl typeStep sm).allOptions = sm.allOptions ∧
    (cs.foldl typeStep sm).searchText = sm.searchText ++ cs := by
  induction cs generalizing sm with
  | nil => simpa using hm
  | cons ch cs ih =>
    rw [List.foldl_cons]
    obtain ⟨h1, h2, h3⟩ := ih (typeStep sm ch) (typeStep_searchMode sm ch)
    refine ⟨h1, ?_, ?_⟩
    · rw [h2, typeStep_allOptions]
    · rw [h3, typeStep_searchText, if_pos hm, List.append_assoc]
      rfl

/-- Embeds `_refilter` only reads `_allOptions`, `searchMode` and `searchText`
from its argument, so refiltering an already-refiltered state with a new
query is one refilter. -/
theorem refilter_settext_refilter (sm : SMenu) (t : List Char) :
    refilter { refilter sm with searchText := t } = refilter { sm with searchText := t } := by
  unfold refilter
  cases hm : sm.searchMode <;> simp [hm]

/-- Backspacing away the whole query from a refiltered searching state
lands on the state refiltered with the empty query. -/
theorem backspace_run (n : Nat) : ∀ (sm : SMenu), sm.searchMode = true →
    sm.searchText.length = n → 1 ≤ n →
    sRun (refilter sm) (List.replicate n Key.backspace) =
      .ok (refilter { sm with searchText := [] }, Option.none) := by
  induction n with
  | zero => intro sm _ _ h1; exact absurd h1 (by omega)
  | succ n ih =>
    intro sm hm hlen _
    have htext : sm.searchText ≠ [] := by
      intro h
      rw [h] at hlen
      simp at hlen
    have hbs : onBackspace (refilter sm) =
        refilter { sm with searchText := sm.searchText.dropLast } := by
      unfold onBackspace
      rw [if_pos ⟨by rw [refilter_searchMode]; exact hm, by rw [refilter_searchText]; exact htext⟩,
        refilter_searchText, refilter_settext_refilter]
    rw [List.replicate_succ,
      sRun_cons_of_ok _ _ _ _ (by rw [show SMenu.dispatchKey (refilter sm) Key.backspace =
        .ok (onBackspace (refilter sm), false) from rfl, hbs])]
    cases Nat.eq_zero_or_pos n with
    | inl h0 =>
      subst h0
      have hdl : sm.searchText.dropLast = [] := by
        have hld := List.length_dropLast sm.searchText
        rw [hlen] at hld
        exact List.eq_nil_of_length_eq_zero (by omega)
      rw [hdl]
      rfl
    | inr hpos =>
      exact ih { sm with searchText := sm.searchText.dropLast } hm
        (by simp [List.length_dropLast, hlen]) hpos

/-- Each `typeStep` result is a refiltered searching state whose query is
the old query (empty when the search had not started) plus the typed
character. -/
theorem typeStep_is_refilter (sm : SMenu) (ch : Char) :
    ∃ smX : SMenu, typeStep sm ch = refilter smX ∧ smX.searchMode = true ∧
      smX.allOptions = sm.allOptions ∧
      smX.searchText = (if sm.searchMode then sm.searchText else []) ++ [ch] := by
  refine ⟨{ startSearch sm with searchText := (startSearch sm).searchText ++ [ch] }, rfl, ?_, ?_, ?_⟩ <;>
    (unfold startSearch; cases hm : sm.searchMode <;> simp [hm])

theorem foldl_typeStep_allOptions (cs : List Char) (sm : SMenu) :
    (cs.foldl typeStep sm).allOptions = sm.allOptions := by
  induction cs generalizing sm with
  | nil => rfl
  | cons ch cs ih => rw [List.foldl_cons, ih, typeStep_allOptions]

/-- With an empty query, `_refilter` in search mode restores the full
option list. -/
theorem refilter_options_of_empty_text (sm : SMenu) (hm : sm.searchMode = true)
    (ht : sm.searchText = []) : (refilter sm).options = sm.allOptions := by
  unfold refilter
  rw [if_pos hm, ht]
  exact filteredPairs_nil_snd sm.allOptions

/-- C6 (filter round-trip): from a freshly constructed search menu, typing
any `k` printable characters and then `k` backspaces leaves the visible
option list equal (as a value sequence) to the full unfiltered list, with
`selected = 0` and `first = 0` (and no finalization or error occurs). -/
theorem filter_roundtrip (title : String) (opts : List String) (default : Option String)
    (h c : Int) (cs : List Char) (hN : opts ≠ [])
    (hp : ∀ ch ∈ cs, 32 < ch.toNat ∧ ch.toNat < 127) :
    ∃ sm' : SMenu,
      sRun (initSMenu title opts default h c)
          (cs.map Key.char ++ List.replicate cs.length Key.backspace) =
        .ok (sm', Option.none) ∧
      sm'.options = opts ∧ sm'.win.selected = 0 ∧ sm'.win.first = 0 := by
  rw [sRun_chars cs _ _ hp]
  cases hcs : cs with
  | nil =>
    refine ⟨initSMenu title opts default h c, rfl, ?_, ?_, ?_⟩ <;>
      simp [initSMenu, refilter]
  | cons ch cs' =>
    set sm0 := initSMenu title opts default h c with hsm0
    have hm0 : sm0.searchMode = false := by
      rw [hsm0]
      unfold initSMenu
      rw [refilter_searchMode]
    have ha0 : sm0.allOptions = opts := by
      rw [hsm0]
      unfold initSMenu
      rw [refilter_allOptions]
    set smF := (ch :: cs').foldl typeStep sm0 with hsmF
    -- projections of the state reached after typing everything
    obtain ⟨hFm, hFa, hFt⟩ :
        smF.searchMode = true ∧ smF.allOptions = sm0.allOptions ∧
          smF.searchText = ch :: cs' := by
      have h1 := foldl_typeStep_props cs' (typeStep sm0 ch) (typeStep_searchMode sm0 ch)
      rw [typeStep_allOptions, typeStep_searchText, if_neg (by simp [hm0])] at h1
      simpa [hsmF] using h1
    -- the last keystroke makes the state a refiltered one
    obtain ⟨ds, dlast, hdd⟩ : ∃ ds d, ch :: cs' = ds ++ [d] := by
      rcases List.eq_nil_or_concat (ch :: cs') with hnil | ⟨ds, d, hc⟩
      · exact absurd hnil (by simp)
      · exact ⟨ds, d, by simpa using hc⟩
    obtain ⟨smX, hX, _, _, _⟩ := typeStep_is_refilter (ds.foldl typeStep sm0) dlast
    have hfold : smF = refilter smX := by
      rw [hsmF, hdd, List.foldl_append, List.foldl_cons, List.foldl_nil, hX]
    have hXm : smX.searchMode = true := by
      rw [← refilter_searchMode, ← hfold, hFm]
    have hXt : smX.searchText = ch :: cs' := by
      rw [← refilter_searchText, ← hfold, hFt]
    have hXa : smX.allOptions = opts := by
      rw [← refilter_allOptions, ← hfold, hFa, ha0]
    rw [hfold, show (ch :: cs').length = smX.searchText.length by rw [hXt],
      backspace_run smX.searchText.length smX hXm rfl (by rw [hXt]; simp)]
    refine ⟨refilter { smX with searchText := [] }, rfl, ?_, ?_, ?_⟩
    · rw [refilter_options_of_empty_text { smX with searchText := [] } (by exact hXm) rfl]
      exact hXa
    · rw [refilter_win]
    · rw [refilter_win]

/-- Witness for `filter_roundtrip` at a concrete input. -/
theorem filter_roundtrip_witness :
    (["apple", "grape"] : List String) ≠ [] ∧
    (∀ ch ∈ (['z'] : List Char), 32 < ch.toNat ∧ ch.toNat < 127) ∧
    (∃ sm' : SMenu,
      sRun (initSMenu "" ["apple", "grape"] Option.none 2 1)
          ((['z'] : List Char).map Key.char ++ List.replicate ['z'].length Key.backspace) =
        .ok (sm', Option.none) ∧
      sm'.options = ["apple", "grape"] ∧ sm'.win.selected = 0 ∧ sm'.win.first = 0) :=
  ⟨by decide, by decide,
    filter_roundtrip "" ["apple", "grape"] Option.none 2 1 ['z'] (by decide) (by decide)⟩

/-- C7: `esc` while searching does not finalize (the dispatch reports
`false`, so the loop continues); it leaves search mode, restores the
visible option list to the full option list, and resets
`selected = 0, first = 0`.  `esc` while not searching finalizes with the
no-selection result `None`. -/
theorem esc_search_behavior (s1 s2 : SMenu)
    (h1 : s1.searchMode = true) (h2 : s2.searchMode = false) :
    SMenu.dispatchKey s1 Key.esc = .ok (stopSearch s1, false) ∧
    (stopSearch s1).searchMode = false ∧
    (stopSearch s1).options = s1.allOptions ∧
    (stopSearch s1).win.selected = 0 ∧ (stopSearch s1).win.first = 0 ∧
    SMenu.dispatchKey s2 Key.esc = .ok ({ s2 with result := Result.none }, true) := by
  have hstop : stopSearch s1 = refilter { s1 with searchMode := false } := by
    unfold stopSearch
    rw [if_pos h1]
  refine ⟨?_, ?_, ?_, ?_, ?_, ?_⟩
  · show Except.ok (sOnEsc s1) = _
    unfold sOnEsc
    rw [if_pos h1]
  · rw [hstop, refilter_searchMode]
  · rw [hstop]
    unfold refilter
    rw [if_neg (by simp)]
  · rw [hstop, refilter_win]
  · rw [hstop, refilter_win]
  · show Except.ok (sOnEsc s2) = _
    unfold sOnEsc
    rw [if_neg (by simp [h2])]

/-- Witness for `esc_search_behavior` at concrete searching and
non-searching states. -/
theorem esc_search_behavior_witness :
    (typeStep (initSMenu "" ["a", "b"] Option.none 2 1) 'z').searchMode = true ∧
    (initSMenu "" ["a", "b"] Option.none 2 1).searchMode = false ∧
    (SMenu.dispatchKey (typeStep (initSMenu "" ["a", "b"] Option.none 2 1) 'z') Key.esc =
        .ok (stopSearch (typeStep (initSMenu "" ["a", "b"] Option.none 2 1) 'z'), false) ∧
      (stopSearch (typeStep (initSMenu "" ["a", "b"] Option.none 2 1) 'z')).searchMode = false ∧
      (stopSearch (typeStep (initSMenu "" ["a", "b"] Option.none 2 1) 'z')).options =
        (typeStep (initSMenu "" ["a", "b"] Option.none 2 1) 'z').allOptions ∧
      (stopSearch (typeStep (initSMenu "" ["a", "b"] Option.none 2 1) 'z')).win.selected = 0 ∧
      (stopSearch (typeStep (initSMenu "" ["a", "b"] Option.none 2 1) 'z')).win.first = 0 ∧
      SMenu.dispatchKey (initSMenu "" ["a", "b"] Option.none 2 1) Key.esc =
        .ok ({ initSMenu "" ["a", "b"] Option.none 2 1 with result := Result.none }, true)) :=
  ⟨by decide, by decide,
    esc_search_behavior (typeStep (initSMenu "" ["a", "b"] Option.none 2 1) 'z')
      (initSMenu "" ["a", "b"] Option.none 2 1) (by decide) (by decide)⟩

/-- C2 is violated by the code: on a multi-select widget that is not
searching, `esc` finalizes with result `None`, not with the empty list —
`MultiSelectMixin._on_esc` stores `[]` but then calls up the MRO, where
`Menu._on_esc` overwrites `result` with `None` before returning `True`. -/
theorem multi_esc_result_overwritten :
    mDispatchView (MMenu.dispatchKey (initMMenu "" ["x", "y", "z"] Option.none 3 1) Key.esc) =
      Option.some (Result.none, true) ∧
    Result.none ≠ Result.list [] := by
  exact ⟨rfl, by decide⟩

/-- C5 counterexample: with `multiSelect`, options `["x","y","z"]`
(height 3, columns 1, cursor starting at 0), the key sequence
`space, down, space, enter` finalizes with `["x","z"]`, not `["x","y"]`:
the first `space` toggles "x" and already advances the cursor to "y", the
`down` moves it to "z", so the second `space` toggles "z". -/
theorem space_down_space_enter_result :
    runMulti (initMMenu "" ["x", "y", "z"] Option.none 3 1)
        [Key.space, Key.down, Key.space, Key.enter] =
      .ok (Option.some (Result.list ["x", "z"])) ∧
    Result.list ["x", "z"] ≠ Result.list ["x", "y"] := by
  exact ⟨rfl, by decide⟩

/-- C5 amended: `space` toggles membership of the option under the cursor
in the selection set and then performs the same cursor advance as `down`
without finalizing; consequently the sequence `space, down, space, enter`
on `["x","y","z"]` toggles "x" and "z" (the first `space` already moved
the cursor to "y") and finalizes with the sorted result `["x","z"]`. -/
theorem space_toggle_advance (m : MMenu) (o : String)
    (ho : pyIndex m.base.options m.base.win.selected = Option.some o) :
    MMenu.dispatchKey m Key.space =
      .ok ({ base := { m.base with
               win := onDown m.base.options m.base.height m.base.columns m.base.win }
             selectedItems := if m.selectedItems.contains o
               then m.selectedItems.erase o else m.selectedItems ++ [o] }, false) ∧
    runMulti (initMMenu "" ["x", "y", "z"] Option.none 3 1)
        [Key.space, Key.down, Key.space, Key.enter] =
      .ok (Option.some (Result.list ["x", "z"])) := by
  constructor
  · show (match mOnSpace m with
      | .error e => (.error e : Except PyErr (MMenu × Bool))
      | .ok m' => .ok (m', false)) = _
    unfold mOnSpace
    rw [ho]
  · rfl

/-- Witness for `space_toggle_advance` at a concrete state. -/
theorem space_toggle_advance_witness :
    pyIndex (initMMenu "" ["x", "y", "z"] Option.none 3 1).base.options
        (initMMenu "" ["x", "y", "z"] Option.none 3 1).base.win.selected =
      Option.some "x" ∧
    (MMenu.dispatchKey (initMMenu "" ["x", "y", "z"] Option.none 3 1) Key.space =
      .ok ({ base := { (initMMenu "" ["x", "y", "z"] Option.none 3 1).base with
               win := onDown (initMMenu "" ["x", "y", "z"] Option.none 3 1).base.options
                 (initMMenu "" ["x", "y", "z"] Option.none 3 1).base.height
                 (initMMenu "" ["x", "y", "z"] Option.none 3 1).base.columns
                 (initMMenu "" ["x", "y", "z"] Option.none 3 1).base.win }
             selectedItems :=
               if (initMMenu "" ["x", "y", "z"] Option.none 3 1).selectedItems.contains "x"
               then (initMMenu "" ["x", "y", "z"] Option.none 3 1).selectedItems.erase "x"
               else (initMMenu "" ["x", "y", "z"] Option.none 3 1).selectedItems ++ ["x"] },
        false) ∧
    runMulti (initMMenu "" ["x", "y", "z"] Option.none 3 1)
        [Key.space, Key.down, Key.space, Key.enter] =
      .ok (Option.some (Result.list ["x", "z"]))) :=
  ⟨rfl, space_toggle_advance (initMMenu "" ["x", "y", "z"] Option.none 3 1) "x" rfl⟩

/-- C10: when the search filter matches nothing the visible option list is
empty, and `enter` then raises an uncaught `IndexError` instead of
finalizing — in the single-select engine, and in the multi-select engine
whenever the selection set is empty; `space` likewise indexes the empty
list.  The embedding's `pyIndex` is not total on this reachable state. -/
theorem empty_filter_indexing_raises :
    sRunOptions (initSMenu "" ["a"] Option.none 1 1) [Key.char 'z'] = Option.some [] ∧
    sRun (initSMenu "" ["a"] Option.none 1 1) [Key.char 'z', Key.enter] =
      .error PyErr.indexError ∧
    runMulti (initMMenu "" ["a"] Option.none 1 1) [Key.char 'z', Key.enter] =
      .error PyErr.indexError ∧
    runMulti (initMMenu "" ["a"] Option.none 1 1) [Key.char 'z', Key.space] =
      .error PyErr.indexError := by
  exact ⟨rfl, rfl, rfl, rfl⟩

theorem getLast_append_singleton (l : List TermOp) (a : TermOp) :
    (l ++ [a]).getLast? = Option.some a := by
  simp

theorem count_clearLine_flat_replicate (n : Nat) :
    ((List.replicate n [TermOp.clearLine, TermOp.down]).flatten).count TermOp.clearLine = n := by
  induction n with
  | zero => rfl
  | succ n ih => simp [List.replicate_succ, List.count_cons, ih]

/-- C8: on every exit path of `show` — finalization via `enter` or `esc`,
end of the key-event stream, or an exception propagating out of the
key-event source or a handler — the cleanup runs before control leaves:
the output trace always ends with `_clear_menu`'s operations followed by
`show_cursor`, and `_clear_menu` clears one line per rendered menu line
(`height` of them, plus the title line when a title was printed, plus the
line under the menu). -/
theorem show_cleanup (m : BMenu) (evs : List Ev) :
    ∃ body : List TermOp,
      (showMenu m evs).2 = body ++ (clearMenuOps m.title m.height ++ [TermOp.showCursor]) ∧
      (clearMenuOps m.title m.height).count TermOp.clearLine =
        (if m.title ≠ "" then m.height + 1 else m.height).toNat + 1 ∧
      (showMenu m evs).2.getLast? = Option.some TermOp.showCursor := by
  refine ⟨((if m.title ≠ "" then
        [TermOp.write (colorize m.title "white" Option.none true ++ "\n")] else []) ++
      printMenuOps m ++ [TermOp.savePos, TermOp.hideCursor]) ++ (showLoop m evs).2, ?_, ?_, ?_⟩
  · unfold showMenu
    simp [List.append_assoc]
  · unfold clearMenuOps
    simp [List.count_append, List.count_cons, count_clearLine_flat_replicate]
  · unfold showMenu
    dsimp only
    exact getLast_append_singleton _ _

theorem adjust_selected_minmax (opts : List String) (h c : Int) (w : Win) :
    (adjust opts h c w).selected = min (max w.selected 0) ((opts.length : Int) - 1) := by
  unfold adjust
  dsimp only
  split <;> split <;> omega

theorem adjust_first_minmax (opts : List String) (h c : Int) (w : Win) :
    (adjust opts h c w).first =
      min (max w.first 0) ((opts.length : Int) - itemsInPage opts h c) := by
  unfold adjust
  dsimp only
  split <;> split <;> omega

theorem itemsInPage_pos (opts : List String) (h c : Int)
    (hh : 1 ≤ h) (hc : 1 ≤ c) (hN : 1 ≤ (opts.length : Int)) :
    1 ≤ itemsInPage opts h c := by
  have hmul : (0 : Int) < h * c := mul_pos (by omega) (by omega)
  unfold itemsInPage
  omega

/-- One `pageDown` step preserves the tour invariant, moves `first`
forward by at most one page, strictly advances the cursor until it reaches
the last option, and is then stationary. -/
theorem pd_step (opts : List String) (h c : Int)
    (hh : 1 ≤ h) (hc : 1 ≤ c) (hN : 1 ≤ (opts.length : Int)) (w : Win)
    (hInv : TourInv opts h c w) :
    TourInv opts h c (onPageDown opts h c w) ∧
    w.first ≤ (onPageDown opts h c w).first ∧
    (onPageDown opts h c w).first ≤ w.first + itemsInPage opts h c ∧
    (w.selected < (opts.length : Int) - 1 →
      w.selected + 1 ≤ (onPageDown opts h c w).selected) ∧
    (w.selected = (opts.length : Int) - 1 →
      (onPageDown opts h c w).selected = w.selected ∧
      (onPageDown opts h c w).first = w.first) := by
  have hitems1 := itemsInPage_pos opts h c hh hc hN
  have hitemsN : itemsInPage opts h c ≤ (opts.length : Int) := min_le_right _ _
  obtain ⟨i1, i2, i3, i4, i5, i6⟩ := hInv
  by_cases hbr : w.selected = w.first + itemsInPage opts h c - 1
  · have hpd : onPageDown opts h c w =
        adjust opts h c
          { selected := w.selected + itemsInPage opts h c
            first := w.first + itemsInPage opts h c } := by
      unfold onPageDown
      dsimp only
      rw [if_pos hbr]
    rw [hpd]
    unfold TourInv
    rw [adjust_selected_minmax, adjust_first_minmax]
    dsimp only
    have hlast : w.selected = (opts.length : Int) - 1 →
        w.first = (opts.length : Int) - itemsInPage opts h c := i6
    by_cases hs : w.selected = (opts.length : Int) - 1
    · have := hlast hs
      refine ⟨⟨by omega, by omega, by omega, by omega, by omega, fun _ => by omega⟩,
        by omega, by omega, by omega, fun _ => ⟨by omega, by omega⟩⟩
    · refine ⟨⟨by omega, by omega, ?_, by omega, by omega, ?_⟩,
        by omega, by omega, by omega, fun hcon => absurd hcon hs⟩
      · omega
      · intro hsel
        omega
  · have hpd : onPageDown opts h c w =
        adjust opts h c
          { selected := w.first + itemsInPage opts h c - 1, first := w.first } := by
      unfold onPageDown
      dsimp only
      rw [if_neg hbr]
    rw [hpd]
    unfold TourInv
    rw [adjust_selected_minmax, adjust_first_minmax]
    dsimp only
    by_cases hs : w.selected = (opts.length : Int) - 1
    · have := i6 hs
      omega
    · refine ⟨⟨by omega, by omega, by omega, by omega, by omega, ?_⟩,
        by omega, by omega, by omega, fun hcon => absurd hcon hs⟩
      intro hsel
      omega

theorem pdIter_succ (opts : List String) (h c : Int) (k : Nat) :
    pdIter opts h c (k + 1) = onPageDown opts h c (pdIter opts h c k) := by
  unfold pdIter
  rw [Function.iterate_succ_apply']

theorem tour_inv (opts : List String) (h c : Int)
    (hh : 1 ≤ h) (hc : 1 ≤ c) (hN : 1 ≤ (opts.length : Int)) (k : Nat) :
    TourInv opts h c (pdIter opts h c k) := by
  induction k with
  | zero =>
    have hitems1 := itemsInPage_pos opts h c hh hc hN
    have hitemsN : itemsInPage opts h c ≤ (opts.length : Int) := min_le_right _ _
    unfold TourInv pdIter
    dsimp only [Function.iterate_zero, id]
    refine ⟨by omega, by omega, by omega, by omega, by omega, ?_⟩
    intro h0
    omega
  | succ k ih =>
    rw [pdIter_succ]
    exact (pd_step opts h c hh hc hN _ ih).1

theorem tour_first_mono (opts : List String) (h c : Int)
    (hh : 1 ≤ h) (hc : 1 ≤ c) (hN : 1 ≤ (opts.length : Int)) (k k' : Nat) (hkk : k ≤ k') :
    (pdIter opts h c k).first ≤ (pdIter opts h c k').first := by
  induction k', hkk using Nat.le_induction with
  | base => exact le_refl _
  | succ k' hkk ih =>
    rw [pdIter_succ]
    exact le_trans ih
      (pd_step opts h c hh hc hN _ (tour_inv opts h c hh hc hN k')).2.1

theorem tour_first_step (opts : List String) (h c : Int)
    (hh : 1 ≤ h) (hc : 1 ≤ c) (hN : 1 ≤ (opts.length : Int)) (k : Nat) :
    (pdIter opts h c (k + 1)).first ≤ (pdIter opts h c k).first + itemsInPage opts h c := by
  rw [pdIter_succ]
  exact (pd_step opts h c hh hc hN _ (tour_inv opts h c hh hc hN k)).2.2.1

theorem tour_sel_lb (opts : List String) (h c : Int)
    (hh : 1 ≤ h) (hc : 1 ≤ c) (hN : 1 ≤ (opts.length : Int)) (k : Nat) :
    min (k : Int) ((opts.length : Int) - 1) ≤ (pdIter opts h c k).selected := by
  induction k with
  | zero =>
    show min (0 : Int) ((opts.length : Int) - 1) ≤ 0
    omega
  | succ k ih =>
    have hinv := tour_inv opts h c hh hc hN k
    have hub : (pdIter opts h c k).selected ≤ (opts.length : Int) - 1 := hinv.2.2.2.1
    rw [pdIter_succ]
    by_cases hs : (pdIter opts h c k).selected = (opts.length : Int) - 1
    · have := (pd_step opts h c hh hc hN _ hinv).2.2.2.2 hs
      push_cast
      omega
    · have := (pd_step opts h c hh hc hN _ hinv).2.2.2.1 (by omega)
      push_cast
      omega

theorem tour_reach_last (opts : List String) (h c : Int)
    (hh : 1 ≤ h) (hc : 1 ≤ c) (hN : 1 ≤ (opts.length : Int)) :
    (pdIter opts h c ((opts.length : Int) - 1).toNat).selected = (opts.length : Int) - 1 := by
  have hlb := tour_sel_lb opts h c hh hc hN ((opts.length : Int) - 1).toNat
  have hub := (tour_inv opts h c hh hc hN ((opts.length : Int) - 1).toNat).2.2.2.1
  have hcast : ((((opts.length : Int) - 1).toNat : Nat) : Int) = (opts.length : Int) - 1 := by
    rw [Int.toNat_of_nonneg (by omega)]
  rw [hcast] at hlb
  omega

theorem tour_stay_last (opts : List String) (h c : Int)
    (hh : 1 ≤ h) (hc : 1 ≤ c) (hN : 1 ≤ (opts.length : Int)) (k : Nat)
    (hk : ((opts.length : Int) - 1).toNat ≤ k) :
    (pdIter opts h c k).selected = (opts.length : Int) - 1 := by
  induction k, hk using Nat.le_induction with
  | base => exact tour_reach_last opts h c hh hc hN
  | succ k hk ih =>
    rw [pdIter_succ]
    rw [← ih]
    exact ((pd_step opts h c hh hc hN _ (tour_inv opts h c hh hc hN k)).2.2.2.2 ih).1

/-- C9: starting from `selected = 0, first = 0` and repeatedly dispatching
`pageDown` on a valid configuration: (i) every index of the option list
appears in the visible page within the first `N-1` steps — and since
`first` is monotone (ii), no page that has been left is ever revisited, so
every item is shown before any page repeats; (iii) after `N-1` steps the
cursor has reached `selected = N-1`; (iv) every further `pageDown` leaves
`selected = N-1`. -/
theorem pageDown_tour (opts : List String) (h c : Int)
    (hh : 1 ≤ h) (hc : 1 ≤ c) (hN : 1 ≤ (opts.length : Int)) :
    (∀ i : Int, 0 ≤ i → i < (opts.length : Int) →
      ∃ k : Nat, (k : Int) ≤ (opts.length : Int) - 1 ∧
        (pdIter opts h c k).first ≤ i ∧
        i < (pdIter opts h c k).first + itemsInPage opts h c) ∧
    (∀ k k' : Nat, k ≤ k' → (pdIter opts h c k).first ≤ (pdIter opts h c k').first) ∧
    (pdIter opts h c ((opts.length : Int) - 1).toNat).selected = (opts.length : Int) - 1 ∧
    (∀ k : Nat, ((opts.length : Int) - 1).toNat ≤ k →
      (pdIter opts h c k).selected = (opts.length : Int) - 1) := by
  refine ⟨?_, fun k k' hkk => tour_first_mono opts h c hh hc hN k k' hkk,
    tour_reach_last opts h c hh hc hN,
    fun k hk => tour_stay_last opts h c hh hc hN k hk⟩
  intro i hi0 hiN
  set K : Nat := ((opts.length : Int) - 1).toNat with hK
  have hKcast : ((K : Nat) : Int) = (opts.length : Int) - 1 := by
    rw [hK, Int.toNat_of_nonneg (by omega)]
  have hKfirst : (pdIter opts h c K).first =
      (opts.length : Int) - itemsInPage opts h c :=
    (tour_inv opts h c hh hc hN K).2.2.2.2.2 (tour_reach_last opts h c hh hc hN)
  by_cases hcase : (opts.length : Int) - itemsInPage opts h c ≤ i
  · exact ⟨K, by omega, by omega, by omega⟩
  · -- `i` lies strictly before the final page: take the last step whose
    -- window starts at or before `i`
    have hP0 : (pdIter opts h c 0).first ≤ i := by
      show (0 : Int) ≤ i
      exact hi0
    set k0 : Nat := Nat.findGreatest (fun k => (pdIter opts h c k).first ≤ i) K with hk0
    have hPk0 : (pdIter opts h c k0).first ≤ i :=
      Nat.findGreatest_spec (P := fun k => (pdIter opts h c k).first ≤ i)
        (Nat.zero_le K) hP0
    have hk0K : k0 ≤ K :=
      Nat.findGreatest_le (P := fun k => (pdIter opts h c k).first ≤ i) K
    have hk0lt : k0 < K := by
      rcases Nat.lt_or_ge k0 K with hlt | hge
      · exact hlt
      · have : k0 = K := le_antisymm hk0K hge
        rw [this, hKfirst] at hPk0
        omega
    have hnext : ¬((pdIter opts h c (k0 + 1)).first ≤ i) :=
      Nat.findGreatest_is_greatest (P := fun k => (pdIter opts h c k).first ≤ i)
        (n := K) (by rw [← hk0]; omega) (by omega)
    have hstep := tour_first_step opts h c hh hc hN k0
    exact ⟨k0, by omega, hPk0, by omega⟩

/-- Witness for `pageDown_tour` at a concrete configuration. -/
theorem pageDown_tour_witness :
    (1 : Int) ≤ 3 ∧ (1 : Int) ≤ 1 ∧
      (1 : Int) ≤ ((["a", "b", "c", "d", "e"] : List String).length : Int) ∧
    ((∀ i : Int, 0 ≤ i → i < ((["a", "b", "c", "d", "e"] : List String).length : Int) →
      ∃ k : Nat, (k : Int) ≤ ((["a", "b", "c", "d", "e"] : List String).length : Int) - 1 ∧
        (pdIter ["a", "b", "c", "d", "e"] 3 1 k).first ≤ i ∧
        i < (pdIter ["a", "b", "c", "d", "e"] 3 1 k).first +
          itemsInPage ["a", "b", "c", "d", "e"] 3 1) ∧
    (∀ k k' : Nat, k ≤ k' →
      (pdIter ["a", "b", "c", "d", "e"] 3 1 k).first ≤
        (pdIter ["a", "b", "c", "d", "e"] 3 1 k').first) ∧
    (pdIter ["a", "b", "c", "d", "e"] 3 1
        (((["a", "b", "c", "d", "e"] : List String).length : Int) - 1).toNat).selected =
      ((["a", "b", "c", "d", "e"] : List String).length : Int) - 1 ∧
    (∀ k : Nat, (((["a", "b", "c", "d", "e"] : List String).length : Int) - 1).toNat ≤ k →
      (pdIter ["a", "b", "c", "d", "e"] 3 1 k).selected =
        ((["a", "b", "c", "d", "e"] : List String).length : Int) - 1)) :=
  ⟨by norm_num, by norm_num, by norm_num,
    pageDown_tour ["a", "b", "c", "d", "e"] 3 1 (by norm_num) (by norm_num) (by norm_num)⟩

end Termenu

